import Mathlib

/-
  Verification of the geodesic integration and scene/interaction engine of
  the black-hole optics visualization (source: src/components/BlackHole.tsx,
  middle snapshot, the most complete variant).

  Real-valued program quantities (JS numbers) are embedded as real numbers.
  JS Math builtins are embedded by their mathematical definitions:
  Math.hypot, Math.atan2, Math.cos, Math.sin, and the JS remainder operator
  (truncated division remainder).  Division by zero never occurs on any
  reachable call of the derivative function (the integration loop breaks
  before the radius can reach zero while the derivative is still used), so
  the real-number convention x / 0 = 0 is never exercised in a way that
  could diverge from the source.
-/

namespace BlackHole

/-- Embedding of JS Math.hypot for two arguments. -/
noncomputable def hypot (x y : ℝ) : ℝ := Real.sqrt (x * x + y * y)

/-- Embedding of JS Math.atan2 (atan2 y x), with atan2 0 0 = 0. -/
noncomputable def atan2 (y x : ℝ) : ℝ :=
  if 0 < x then Real.arctan (y / x)
  else if x < 0 then
    (if 0 ≤ y then Real.arctan (y / x) + Real.pi else Real.arctan (y / x) - Real.pi)
  else
    (if 0 < y then Real.pi / 2 else if y < 0 then -(Real.pi / 2) else 0)

/-- Truncation toward zero, as used by the JS remainder operator. -/
noncomputable def jsTrunc (x : ℝ) : ℤ :=
  if 0 ≤ x then ⌊x⌋ else ⌈x⌉

/-- Embedding of the JS remainder operator a % b (sign follows the dividend). -/
noncomputable def jsMod (a b : ℝ) : ℝ :=
  a - b * (jsTrunc (a / b) : ℝ)

/-- Source function normalizeAngle: ((angle % 360) + 360) % 360. -/
noncomputable def normalizeAngle (angle : ℝ) : ℝ :=
  jsMod (jsMod angle 360 + 360) 360

/-- Output point of the geodesic solver: { x, y, distToCenter }. -/
structure PathPoint where
  x : ℝ
  y : ℝ
  distToCenter : ℝ

/-- Source helper rk4 inside calculateLightPath: one classical Runge-Kutta
step on the state vector (r, phi, p_r). -/
noncomputable def rk4 (y : ℝ × ℝ × ℝ) (h : ℝ) (derivs : ℝ × ℝ × ℝ → ℝ × ℝ × ℝ) :
    ℝ × ℝ × ℝ :=
  let k1 := derivs y
  let k2 := derivs (y.1 + 0.5 * h * k1.1, y.2.1 + 0.5 * h * k1.2.1, y.2.2 + 0.5 * h * k1.2.2)
  let k3 := derivs (y.1 + 0.5 * h * k2.1, y.2.1 + 0.5 * h * k2.2.1, y.2.2 + 0.5 * h * k2.2.2)
  let k4 := derivs (y.1 + h * k3.1, y.2.1 + h * k3.2.1, y.2.2 + h * k3.2.2)
  (y.1 + h / 6 * (k1.1 + 2 * k2.1 + 2 * k3.1 + k4.1),
   y.2.1 + h / 6 * (k1.2.1 + 2 * k2.2.1 + 2 * k3.2.1 + k4.2.1),
   y.2.2 + h / 6 * (k1.2.2 + 2 * k2.2.2 + 2 * k3.2.2 + k4.2.2))

/-- Source closure derivs inside calculateLightPath, with the two captured
constants (effectiveRs and the conserved angular momentum L) made explicit.
The unused local f = 1 - effectiveRs / r of the source is omitted. -/
noncomputable def derivs (effectiveRs L : ℝ) (y : ℝ × ℝ × ℝ) : ℝ × ℝ × ℝ :=
  let r := y.1
  let p_r := y.2.2
  let dVdr := L * L * (-2 / r ^ 3 + 3 * effectiveRs / r ^ 4)
  (p_r, L / (r * r), -0.5 * dVdr)

/-- Effective Schwarzschild radius: rs * massFactor where
rs = bhSize * 0.25 and massFactor = 1 when gravity is enabled, else 0. -/
noncomputable def effectiveRs (bhSize : ℝ) (gravityEnabled : Bool) : ℝ :=
  bhSize * 0.25 * (if gravityEnabled then (1 : ℝ) else 0)

/-- Constant context of the integration loop of calculateLightPath. -/
structure LoopCtx where
  centerX : ℝ
  centerY : ℝ
  effRs : ℝ
  L : ℝ
  h : ℝ
  maxDistance : ℝ
  width : ℝ
  height : ℝ
  zoom : ℝ

/-- The for-loop of calculateLightPath, written as structural recursion on
the remaining step budget.  Each iteration first checks the capture
condition, then the escape condition, and only then appends the point and
advances the state by one rk4 step; a break is an empty tail. -/
noncomputable def lightPathLoop (ctx : LoopCtx) : ℕ → ℝ × ℝ × ℝ → List PathPoint
  | 0, _ => []
  | n + 1, s =>
    let r := s.1
    let phi := s.2.1
    if r ≤ ctx.effRs * 1.001 then []
    else
      let xPix := r * Real.cos phi + ctx.centerX
      let yPix := r * Real.sin phi + ctx.centerY
      let distFromCenter := hypot (xPix - ctx.centerX) (yPix - ctx.centerY)
      let factor := 1 / ctx.zoom
      if distFromCenter > ctx.maxDistance ∨ xPix < -(factor * ctx.width) ∨
          xPix > ctx.width * factor ∨ yPix < -(factor * ctx.height) ∨
          yPix > ctx.height * factor then []
      else
        { x := xPix, y := yPix, distToCenter := ctx.zoom } ::
          lightPathLoop ctx n (rk4 s ctx.h (derivs ctx.effRs ctx.L))

/-- Source function calculateLightPath: integrate a photon geodesic from a
screen start point and emission angle; maxSteps = 4000, h = rs * 0.01. -/
noncomputable def calculateLightPath (startX startY angleDeg width height bhSize zoom : ℝ)
    (gravityEnabled : Bool) : List PathPoint :=
  let centerX := width / 2
  let centerY := height / 2
  let rs := bhSize * 0.25
  let effRs := effectiveRs bhSize gravityEnabled
  let relX0 := startX - centerX
  let relY0 := startY - centerY
  let r0 := hypot relX0 relY0
  let phi0 := atan2 relY0 relX0
  let angle := angleDeg * Real.pi / 180
  let vx := Real.cos angle
  let vy := Real.sin angle
  let n_r := vx * Real.cos phi0 + vy * Real.sin phi0
  let n_phi := -vx * Real.sin phi0 + vy * Real.cos phi0
  let p_r0 := n_r
  let L := n_phi * r0
  let h := rs * 0.01
  let maxDistance := max width height * (1.5 / zoom)
  lightPathLoop ⟨centerX, centerY, effRs, L, h, maxDistance, width, height, zoom⟩
    4000 (r0, phi0, p_r0)

/-- Emission-side tag of the Laser type ('left' | 'right'); legacy, does not
affect geometry. -/
inductive Side where
  | left : Side
  | right : Side
deriving DecidableEq

/-- The Laser record of the source (one user-placed ray source). -/
structure Laser where
  id : ℕ
  x : ℝ
  y : ℝ
  fired : Bool
  angle : ℝ
  direction : Side

/-- The tempInputValues record: staged text of the coordinate edit dialog. -/
structure TempInput where
  x : String
  y : String
  angle : String
deriving DecidableEq

/-- The component state manipulated by the interaction handlers.  Fields
mirror the useState hooks of BlackHoleComponent that the handlers read or
write. -/
structure AppState where
  zoom : ℝ
  editingLaserId : Option ℕ
  tempInput : TempInput
  lasers : List Laser
  nextId : ℕ
  isDragging : Bool
  dragOffsetX : ℝ
  dragOffsetY : ℝ
  draggedLaserId : Option ℕ
  rotatingLaserId : Option ℕ
  lastMouseX : Option ℝ
  panX : ℝ
  panY : ℝ
  isPanning : Bool
  panStartX : ℝ
  panStartY : ℝ
  wasPanning : Bool

/-- Which field of the edit dialog is being edited ('x' | 'y' | 'angle'). -/
inductive EditField where
  | x : EditField
  | y : EditField
  | angle : EditField
deriving DecidableEq

/-- Staged-text update of handleLaserEdit (computed-key record update). -/
def updateTemp (t : TempInput) : EditField → String → TempInput
  | EditField.x, v => { t with x := v }
  | EditField.y, v => { t with y := v }
  | EditField.angle, v => { t with angle := v }

/-- Field commit of handleLaserEdit on the target laser: x and y convert
from Rs units back to screen pixels (y sign-flipped), angle converts from
physics convention back to screen convention with the source's inline
((-numValue % 360) + 360) % 360 normalization. -/
noncomputable def applyEdit : EditField → ℝ → ℝ → Laser → Laser
  | EditField.x, numValue, rs, laser => { laser with x := numValue * rs }
  | EditField.y, numValue, rs, laser => { laser with y := -numValue * rs }
  | EditField.angle, numValue, _, laser =>
      { laser with angle := jsMod (jsMod (-numValue) 360 + 360) 360 }

/-- Source handler handleWheel: zoom update clamped to [0.2, 2.5]. -/
noncomputable def handleWheel (st : AppState) (deltaY : ℝ) : AppState :=
  let next := st.zoom - deltaY * 0.001
  let next := if next < 0.2 then (0.2 : ℝ) else next
  let next := if next > 2.5 then (2.5 : ℝ) else next
  { st with zoom := next }

/-- Source handler handleCanvasClick.  cx, cy are BH_CENTER and bhSize is
BH_SIZE; the click position (x, y) is already relative to the canvas rect.
A new laser is appended (fired immediately, angle 90 when shift is held)
only when the world-space distance from the center exceeds rs / zoom. -/
noncomputable def handleCanvasClick (cx cy bhSize : ℝ) (st : AppState)
    (x y : ℝ) (shiftKey : Bool) : AppState :=
  if st.wasPanning then { st with wasPanning := false }
  else if st.isDragging || st.isPanning then st
  else
    let relativeX := (x - cx - st.panX) / st.zoom
    let relativeY := (y - cy - st.panY) / st.zoom
    let distanceFromCenter := hypot relativeX relativeY
    let blackHoleRadius := bhSize * 0.25 / st.zoom
    if distanceFromCenter > blackHoleRadius then
      { st with
        lasers := st.lasers ++
          [{ id := st.nextId, x := relativeX, y := relativeY, fired := true,
             angle := if shiftKey then (90 : ℝ) else 0, direction := Side.right }],
        nextId := st.nextId + 1 }
    else st

/-- Source handler handleLaserDoubleClick: remove the laser with this id. -/
def handleLaserDoubleClick (st : AppState) (id : ℕ) : AppState :=
  { st with lasers := st.lasers.filter (fun laser => laser.id ≠ id) }

/-- Source handler handleLaserMouseDown.  Button 0 starts a drag; button 2
with shift opens the edit dialog for an existing laser (the staged strings
are the toFixed-formatted display values, carried here as event data since
decimal formatting is a JS builtin); button 2 without shift starts a
rotation gesture. -/
def handleLaserMouseDown (st : AppState) (id : ℕ) (button : ℕ)
    (shiftKey : Bool) (clientX offX offY : ℝ)
    (dispX dispY dispAngle : String) : AppState :=
  if button = 0 then
    { st with isDragging := true, draggedLaserId := some id,
              dragOffsetX := offX, dragOffsetY := offY }
  else if button = 2 then
    if shiftKey then
      match st.lasers.find? (fun l => l.id == id) with
      | some _ =>
          { st with tempInput := { x := dispX, y := dispY, angle := dispAngle },
                    editingLaserId := some id }
      | none => st
    else
      { st with rotatingLaserId := some id, lastMouseX := some clientX }
  else st

/-- Source handler handleLaserEdit.  The staged text is always updated; the
laser list is touched only when the field value parses as a number (parsed
is the result of JS parseFloat, none standing for NaN). -/
noncomputable def handleLaserEdit (bhSize : ℝ) (st : AppState)
    (field : EditField) (value : String) (parsed : Option ℝ) : AppState :=
  match st.editingLaserId with
  | none => st
  | some editId =>
    let st1 := { st with tempInput := updateTemp st.tempInput field value }
    match parsed with
    | none => st1
    | some numValue =>
      let rs := bhSize * 0.25
      { st1 with
        lasers := st1.lasers.map (fun laser =>
          if laser.id = editId then applyEdit field numValue rs laser else laser) }

/-- Source handler handleCloseLaserEdit. -/
def handleCloseLaserEdit (st : AppState) : AppState :=
  { st with editingLaserId := none }

/-- Source handler handleMouseMove: rotation first (needs both a rotating
laser and a last mouse x), then drag, then panning. -/
noncomputable def handleMouseMove (cx cy : ℝ) (st : AppState)
    (clientX clientY rectLeft rectTop : ℝ) : AppState :=
  match st.rotatingLaserId, st.lastMouseX with
  | some rid, some lastX =>
      let deltaX := clientX - lastX
      { st with
        lasers := st.lasers.map (fun laser =>
          if laser.id = rid then
            { laser with angle := normalizeAngle (laser.angle + deltaX * 0.5) }
          else laser),
        lastMouseX := some clientX }
  | _, _ =>
    match st.isDragging, st.draggedLaserId with
    | true, some did =>
        let x := clientX - rectLeft
        let y := clientY - rectTop
        let relativeX := (x - cx - st.panX) / st.zoom
        let relativeY := (y - cy - st.panY) / st.zoom
        { st with
          lasers := st.lasers.map (fun laser =>
            if laser.id = did then { laser with x := relativeX, y := relativeY }
            else laser) }
    | _, _ =>
      if st.isPanning then
        { st with panX := clientX - st.panStartX, panY := clientY - st.panStartY }
      else st

/-- Source handler handleMouseDown: middle button, or left button with alt,
starts panning. -/
def handleMouseDown (st : AppState) (button : ℕ) (altKey : Bool)
    (clientX clientY : ℝ) : AppState :=
  if button = 1 ∨ (button = 0 ∧ altKey) then
    { st with isPanning := true,
              panStartX := clientX - st.panX, panStartY := clientY - st.panY }
  else st

/-- Source handler handleMouseUp. -/
def handleMouseUp (st : AppState) (button : ℕ) : AppState :=
  if button = 0 then
    let st1 := { st with isDragging := false, draggedLaserId := none }
    if st1.isPanning then { st1 with isPanning := false, wasPanning := true }
    else st1
  else if button = 2 then
    { st with rotatingLaserId := none, lastMouseX := none }
  else if button = 1 then
    if st.isPanning then { st with isPanning := false, wasPanning := true }
    else st
  else st

/-- Source handler handleCleanAll: drop every laser. -/
def handleCleanAll (st : AppState) : AppState :=
  { st with lasers := [] }

/-- One interaction event, with its payload, as dispatched to a handler. -/
inductive Event where
  | wheel (deltaY : ℝ) : Event
  | canvasClick (x y : ℝ) (shiftKey : Bool) : Event
  | laserDoubleClick (id : ℕ) : Event
  | laserMouseDown (id : ℕ) (button : ℕ) (shiftKey : Bool)
      (clientX offX offY : ℝ) (dispX dispY dispAngle : String) : Event
  | laserEdit (field : EditField) (value : String) (parsed : Option ℝ) : Event
  | closeLaserEdit : Event
  | mouseMove (clientX clientY rectLeft rectTop : ℝ) : Event
  | mouseDown (button : ℕ) (altKey : Bool) (clientX clientY : ℝ) : Event
  | mouseUp (button : ℕ) : Event
  | cleanAll : Event

/-- Dispatch one event to its handler.  cx, cy are BH_CENTER and bhSize is
BH_SIZE, fixed for a session. -/
noncomputable def stepEvent (cx cy bhSize : ℝ) (st : AppState) : Event → AppState
  | Event.wheel d => handleWheel st d
  | Event.canvasClick x y sh => handleCanvasClick cx cy bhSize st x y sh
  | Event.laserDoubleClick id => handleLaserDoubleClick st id
  | Event.laserMouseDown id b sh clientX offX offY dx dy da =>
      handleLaserMouseDown st id b sh clientX offX offY dx dy da
  | Event.laserEdit f v p => handleLaserEdit bhSize st f v p
  | Event.closeLaserEdit => handleCloseLaserEdit st
  | Event.mouseMove a b c d => handleMouseMove cx cy st a b c d
  | Event.mouseDown b alt x y => handleMouseDown st b alt x y
  | Event.mouseUp b => handleMouseUp st b
  | Event.cleanAll => handleCleanAll st

/-- Initial component state (the useState initializers). -/
def initState : AppState :=
  { zoom := 1, editingLaserId := none, tempInput := ⟨"", "", ""⟩,
    lasers := [], nextId := 0, isDragging := false,
    dragOffsetX := 0, dragOffsetY := 0, draggedLaserId := none,
    rotatingLaserId := none, lastMouseX := none, panX := 0, panY := 0,
    isPanning := false, panStartX := 0, panStartY := 0, wasPanning := false }

/-- Run a sequence of interaction events from the initial state. -/
noncomputable def runEvents (cx cy bhSize : ℝ) (events : List Event) : AppState :=
  events.foldl (stepEvent cx cy bhSize) initState

/-- A path point lies within distance tol of the Euclidean ray cast from
(startX, startY) at angleDeg (screen convention). -/
noncomputable def liesOnRay (startX startY angleDeg tol : ℝ) (pt : PathPoint) : Prop :=
  ∃ t : ℝ, 0 ≤ t ∧
    hypot (pt.x - (startX + t * Real.cos (angleDeg * Real.pi / 180)))
          (pt.y - (startY + t * Real.sin (angleDeg * Real.pi / 180))) ≤ tol

/-- Evaluation helper: hypot of a nonnegative value and zero. -/
theorem hypot_nonneg_axis (a : ℝ) (h : 0 ≤ a) : hypot a 0 = a := by
  unfold hypot
  rw [show a * a + 0 * 0 = a ^ 2 by ring, Real.sqrt_sq h]

/-- Hypot dominates the absolute value of its first argument. -/
theorem abs_le_hypot (a b : ℝ) : |a| ≤ hypot a b := by
  unfold hypot
  rw [show a * a + b * b = a ^ 2 + b ^ 2 by ring, ← Real.sqrt_sq_eq_abs]
  exact Real.sqrt_le_sqrt (by nlinarith [sq_nonneg b])

/-- Hypot of a point given in polar form is the absolute radius. -/
theorem hypot_polar (r phi : ℝ) : hypot (r * Real.cos phi) (r * Real.sin phi) = |r| := by
  unfold hypot
  rw [show r * Real.cos phi * (r * Real.cos phi) + r * Real.sin phi * (r * Real.sin phi) =
      r ^ 2 * (Real.sin phi ^ 2 + Real.cos phi ^ 2) by ring,
    Real.sin_sq_add_cos_sq, mul_one, Real.sqrt_sq_eq_abs]

/-- JS remainder of a nonnegative dividend by a positive divisor, via the
fractional part. -/
theorem jsMod_of_nonneg (a b : ℝ) (hb : 0 < b) (ha : 0 ≤ a) :
    jsMod a b = b * Int.fract (a / b) := by
  unfold jsMod jsTrunc
  rw [if_pos (div_nonneg ha hb.le), Int.fract]
  field_simp

/-- JS remainder of a negative dividend by a positive divisor, via the
fractional part of the negated quotient. -/
theorem jsMod_of_neg (a b : ℝ) (hb : 0 < b) (ha : a < 0) :
    jsMod a b = -(b * Int.fract (-a / b)) := by
  unfold jsMod jsTrunc
  rw [if_neg (not_le.mpr (div_neg_of_neg_of_pos ha hb)),
    show a / b = -(-a / b) by ring, Int.ceil_neg, Int.fract]
  push_cast
  field_simp
  ring

/-- The JS remainder by a positive divisor is strictly below the divisor. -/
theorem jsMod_lt (a b : ℝ) (hb : 0 < b) : jsMod a b < b := by
  rcases le_or_lt 0 a with ha | ha
  · rw [jsMod_of_nonneg a b hb ha]
    nlinarith [Int.fract_nonneg (a / b), Int.fract_lt_one (a / b)]
  · rw [jsMod_of_neg a b hb ha]
    nlinarith [Int.fract_nonneg (-a / b), Int.fract_lt_one (-a / b)]

/-- The JS remainder by a positive divisor is strictly above its negation. -/
theorem neg_lt_jsMod (a b : ℝ) (hb : 0 < b) : -b < jsMod a b := by
  rcases le_or_lt 0 a with ha | ha
  · rw [jsMod_of_nonneg a b hb ha]
    nlinarith [Int.fract_nonneg (a / b), Int.fract_lt_one (a / b)]
  · rw [jsMod_of_neg a b hb ha]
    nlinarith [Int.fract_nonneg (-a / b), Int.fract_lt_one (-a / b)]

/-- The JS remainder of a nonnegative dividend is nonnegative. -/
theorem jsMod_nonneg (a b : ℝ) (hb : 0 < b) (ha : 0 ≤ a) : 0 ≤ jsMod a b := by
  rw [jsMod_of_nonneg a b hb ha]
  have := Int.fract_nonneg (a / b)
  positivity

/-- The source normalization ((a % 360) + 360) % 360 lands in [0, 360). -/
theorem normalizeAngle_mem (a : ℝ) :
    0 ≤ normalizeAngle a ∧ normalizeAngle a < 360 := by
  unfold normalizeAngle
  have h1 : -(360 : ℝ) < jsMod a 360 := neg_lt_jsMod a 360 (by norm_num)
  have harg : (0 : ℝ) ≤ jsMod a 360 + 360 := by linarith
  exact ⟨jsMod_nonneg _ 360 (by norm_num) harg, jsMod_lt _ 360 (by norm_num)⟩

/-- The integration loop emits at most one point per unit of remaining
step budget. -/
theorem lightPathLoop_length_le (ctx : LoopCtx) :
    ∀ (fuel : ℕ) (s : ℝ × ℝ × ℝ), (lightPathLoop ctx fuel s).length ≤ fuel := by
  intro fuel
  induction fuel with
  | zero => intro s; simp [lightPathLoop]
  | succ n ih =>
    intro s
    rw [lightPathLoop]
    dsimp only
    split
    · simp
    · split
      · simp
      · simpa using Nat.succ_le_succ (ih _)

/-- Claim C4: for every input, calculateLightPath terminates (it is a total
function of its arguments) and returns a sequence of at most 4000 points;
the step budget caps the length even when neither capture nor escape
fires. -/
theorem calculateLightPath_length_le (startX startY angleDeg width height bhSize zoom : ℝ)
    (gravityEnabled : Bool) :
    (calculateLightPath startX startY angleDeg width height bhSize zoom
      gravityEnabled).length ≤ 4000 := by
  unfold calculateLightPath
  exact lightPathLoop_length_le _ 4000 _

/-- Claim C5: a canvas click whose world position is within bhSize * 0.25 /
zoom of the body center is a no-op on the ray list and the id counter, in
every scene state. -/
theorem create_rejected_inside_body (cx cy bhSize : ℝ) (st : AppState)
    (x y : ℝ) (shiftKey : Bool)
    (h : hypot ((x - cx - st.panX) / st.zoom) ((y - cy - st.panY) / st.zoom) ≤
      bhSize * 0.25 / st.zoom) :
    (handleCanvasClick cx cy bhSize st x y shiftKey).lasers = st.lasers ∧
    (handleCanvasClick cx cy bhSize st x y shiftKey).nextId = st.nextId := by
  unfold handleCanvasClick
  cases hw : st.wasPanning with
  | true => simp [hw]
  | false =>
    cases hd : (st.isDragging || st.isPanning) with
    | true => simp [hw, hd]
    | false => simp [hw, hd, not_lt.mpr h]

/-- Witness for C5: clicking exactly at the body center from the initial
state leaves the ray list and the id counter unchanged. -/
theorem create_rejected_inside_body_witness :
    (handleCanvasClick 400 400 400 initState 400 400 false).lasers = initState.lasers ∧
    (handleCanvasClick 400 400 400 initState 400 400 false).nextId = initState.nextId :=
  create_rejected_inside_body 400 400 400 initState 400 400 false (by
    norm_num [initState, hypot, Real.sqrt_zero])

/-- Claim C6: a qualifying canvas click (no gesture in progress, outside
the body) appends exactly one laser, fired immediately, with angle 90 when
shift is held and 0 otherwise, and consumes the next id. -/
theorem create_appends_fired_laser (cx cy bhSize : ℝ) (st : AppState)
    (x y : ℝ) (shiftKey : Bool)
    (h1 : st.wasPanning = false) (h2 : st.isDragging = false)
    (h3 : st.isPanning = false)
    (h4 : bhSize * 0.25 / st.zoom <
      hypot ((x - cx - st.panX) / st.zoom) ((y - cy - st.panY) / st.zoom)) :
    (handleCanvasClick cx cy bhSize st x y shiftKey).lasers =
      st.lasers ++
        [{ id := st.nextId, x := (x - cx - st.panX) / st.zoom,
           y := (y - cy - st.panY) / st.zoom, fired := true,
           angle := if shiftKey then (90 : ℝ) else 0, direction := Side.right }] ∧
    (handleCanvasClick cx cy bhSize st x y shiftKey).nextId = st.nextId + 1 := by
  unfold handleCanvasClick
  simp [h1, h2, h3, h4]

/-- Witness for C6: a click at (700, 400) with the body centered at
(400, 400) and radius 100 creates laser 0 at world position (300, 0),
fired, with angle 0. -/
theorem create_appends_fired_laser_witness :
    (handleCanvasClick 400 400 400 initState 700 400 false).lasers =
      initState.lasers ++
        [{ id := initState.nextId, x := (700 - 400 - initState.panX) / initState.zoom,
           y := (400 - 400 - initState.panY) / initState.zoom, fired := true,
           angle := if false then (90 : ℝ) else 0, direction := Side.right }] ∧
    (handleCanvasClick 400 400 400 initState 700 400 false).nextId =
      initState.nextId + 1 :=
  create_appends_fired_laser 400 400 400 initState 700 400 false rfl rfl rfl (by
    have h300 : hypot 300 0 = 300 := by
      unfold hypot
      rw [show (300 : ℝ) * 300 + 0 * 0 = 300 ^ 2 by norm_num,
        Real.sqrt_sq (by norm_num : (0:ℝ) ≤ 300)]
    norm_num [initState]
    rw [h300]
    norm_num)

/-- Claim C7: with an active edit session, a field value that does not
parse as a number (parsed = none) updates only the staged text and leaves
every laser unchanged, while a parsed value commits immediately to the
target laser. -/
theorem laser_edit_staging (bhSize : ℝ) (st : AppState) (field : EditField)
    (value : String) (eid : ℕ) (h : st.editingLaserId = some eid) :
    (handleLaserEdit bhSize st field value none).lasers = st.lasers ∧
    (handleLaserEdit bhSize st field value none).tempInput =
      updateTemp st.tempInput field value ∧
    ∀ numValue : ℝ,
      (handleLaserEdit bhSize st field value (some numValue)).lasers =
        st.lasers.map (fun laser =>
          if laser.id = eid then applyEdit field numValue (bhSize * 0.25) laser
          else laser) ∧
      (handleLaserEdit bhSize st field value (some numValue)).tempInput =
        updateTemp st.tempInput field value := by
  unfold handleLaserEdit
  rw [h]
  exact ⟨rfl, rfl, fun numValue => ⟨rfl, rfl⟩⟩

/-- Witness for C7: a concrete edit session on laser 3; an unparseable
value leaves the laser list unchanged, a parseable one maps the commit
over the list. -/
theorem laser_edit_staging_witness :
    (handleLaserEdit 400
        { initState with editingLaserId := some 3,
                         lasers := [{ id := 3, x := 1, y := 2, fired := true,
                                      angle := 45, direction := Side.right }] }
        EditField.x ("abc") none).lasers =
      [{ id := 3, x := 1, y := 2, fired := true, angle := 45,
         direction := Side.right }] ∧
    (handleLaserEdit 400
        { initState with editingLaserId := some 3,
                         lasers := [{ id := 3, x := 1, y := 2, fired := true,
                                      angle := 45, direction := Side.right }] }
        EditField.x ("abc") none).tempInput =
      updateTemp initState.tempInput EditField.x ("abc") := by
  have h := laser_edit_staging 400
    { initState with editingLaserId := some 3,
                     lasers := [{ id := 3, x := 1, y := 2, fired := true,
                                  angle := 45, direction := Side.right }] }
    EditField.x ("abc") 3 rfl
  exact ⟨h.1, h.2.1⟩

/-- Angle invariant: every laser's angle lies in [0, 360). -/
def AngleInv (st : AppState) : Prop :=
  ∀ l ∈ st.lasers, 0 ≤ l.angle ∧ l.angle < 360

/-- handleLaserMouseDown never modifies the laser list. -/
theorem handleLaserMouseDown_lasers (st : AppState) (id button : ℕ)
    (shiftKey : Bool) (clientX offX offY : ℝ) (dispX dispY dispAngle : String) :
    (handleLaserMouseDown st id button shiftKey clientX offX offY
      dispX dispY dispAngle).lasers = st.lasers := by
  unfold handleLaserMouseDown
  split_ifs
  · rfl
  · cases st.lasers.find? (fun l => l.id == id) <;> rfl
  · rfl
  · rfl

/-- handleMouseUp never modifies the laser list. -/
theorem handleMouseUp_lasers (st : AppState) (button : ℕ) :
    (handleMouseUp st button).lasers = st.lasers := by
  unfold handleMouseUp
  dsimp only
  split_ifs <;> rfl

/-- One event preserves the angle invariant. -/
theorem stepEvent_angleInv (cx cy bhSize : ℝ) (st : AppState) (ev : Event)
    (h : AngleInv st) : AngleInv (stepEvent cx cy bhSize st ev) := by
  cases ev with
  | wheel d => exact h
  | canvasClick x y sh =>
    intro l hl
    dsimp only [stepEvent] at hl
    unfold handleCanvasClick at hl
    dsimp only at hl
    split_ifs at hl
    all_goals first
      | exact h l hl
      | (dsimp only at hl
         rcases List.mem_append.mp hl with hl' | hl'
         · exact h l hl'
         · rw [List.mem_singleton] at hl'
           subst hl'
           norm_num)
  | laserDoubleClick id =>
    intro l hl
    dsimp only [stepEvent] at hl
    unfold handleLaserDoubleClick at hl
    exact h l (List.mem_of_mem_filter hl)
  | laserMouseDown id b sh clientX offX offY dx dy da =>
    intro l hl
    dsimp only [stepEvent] at hl
    rw [handleLaserMouseDown_lasers] at hl
    exact h l hl
  | laserEdit f v p =>
    intro l hl
    dsimp only [stepEvent] at hl
    unfold handleLaserEdit at hl
    cases he : st.editingLaserId with
    | none => rw [he] at hl; exact h l hl
    | some eid =>
      rw [he] at hl
      cases p with
      | none => exact h l hl
      | some numValue =>
        dsimp only at hl
        rcases List.mem_map.mp hl with ⟨l0, hl0, rfl⟩
        by_cases hid : l0.id = eid
        · rw [if_pos hid]
          cases f with
          | x => exact h l0 hl0
          | y => exact h l0 hl0
          | angle =>
            simpa [applyEdit, normalizeAngle] using normalizeAngle_mem (-numValue)
        · rw [if_neg hid]
          exact h l0 hl0
  | closeLaserEdit => exact h
  | mouseMove a b c d =>
    intro l hl
    dsimp only [stepEvent] at hl
    unfold handleMouseMove at hl
    cases hr : st.rotatingLaserId with
    | some rid =>
      cases hm : st.lastMouseX with
      | some lastX =>
        rw [hr, hm] at hl
        dsimp only at hl
        rcases List.mem_map.mp hl with ⟨l0, hl0, rfl⟩
        by_cases hid : l0.id = rid
        · rw [if_pos hid]
          exact normalizeAngle_mem _
        · rw [if_neg hid]
          exact h l0 hl0
      | none =>
        rw [hr, hm] at hl
        dsimp only at hl
        cases hd : st.isDragging with
        | true =>
          cases hdid : st.draggedLaserId with
          | some did =>
            rw [hd, hdid] at hl
            dsimp only at hl
            rcases List.mem_map.mp hl with ⟨l0, hl0, rfl⟩
            by_cases hid : l0.id = did
            · rw [if_pos hid]
              exact h l0 hl0
            · rw [if_neg hid]
              exact h l0 hl0
          | none =>
            rw [hd, hdid] at hl
            dsimp only at hl
            split_ifs at hl <;> exact h l hl
        | false =>
          rw [hd] at hl
          dsimp only at hl
          split_ifs at hl <;> exact h l hl
    | none =>
      rw [hr] at hl
      dsimp only at hl
      cases hd : st.isDragging with
      | true =>
        cases hdid : st.draggedLaserId with
        | some did =>
          rw [hd, hdid] at hl
          dsimp only at hl
          rcases List.mem_map.mp hl with ⟨l0, hl0, rfl⟩
          by_cases hid : l0.id = did
          · rw [if_pos hid]
            exact h l0 hl0
          · rw [if_neg hid]
            exact h l0 hl0
        | none =>
          rw [hd, hdid] at hl
          dsimp only at hl
          split_ifs at hl <;> exact h l hl
      | false =>
        rw [hd] at hl
        dsimp only at hl
        split_ifs at hl <;> exact h l hl
  | mouseDown b alt x y =>
    intro l hl
    dsimp only [stepEvent] at hl
    unfold handleMouseDown at hl
    split_ifs at hl <;> exact h l hl
  | mouseUp b =>
    intro l hl
    dsimp only [stepEvent] at hl
    rw [handleMouseUp_lasers] at hl
    exact h l hl
  | cleanAll =>
    intro l hl
    simp [handleCleanAll, stepEvent] at hl

/-- The angle invariant is preserved by any event sequence. -/
theorem foldl_angleInv (cx cy bhSize : ℝ) :
    ∀ (events : List Event) (st : AppState), AngleInv st →
      AngleInv (List.foldl (stepEvent cx cy bhSize) st events) := by
  intro events
  induction events with
  | nil => intro st h; exact h
  | cons ev rest ih =>
    intro st h
    exact ih _ (stepEvent_angleInv cx cy bhSize st ev h)

/-- Claim C8: in every state reachable from the initial state by any
sequence of interaction events, every laser's angle lies in [0, 360):
creation assigns 0 or 90, rotation steps pass through normalizeAngle, and
angle edit commits pass through the inline
((x mod 360) + 360) mod 360 normalization. -/
theorem angle_invariant (cx cy bhSize : ℝ) (events : List Event) (l : Laser)
    (hl : l ∈ (runEvents cx cy bhSize events).lasers) :
    0 ≤ l.angle ∧ l.angle < 360 := by
  refine foldl_angleInv cx cy bhSize events initState ?_ l hl
  intro l' hl'
  simp [initState] at hl'

/-- The laser produced by the concrete click used in the witnesses below. -/
def laserA : Laser :=
  { id := 0, x := 300, y := 0, fired := true, angle := 0, direction := Side.right }

/-- Evaluation helper: one qualifying click from the initial state creates
exactly laser 0 at world position (300, 0), fired, with angle 0. -/
theorem runEvents_one_click :
    (runEvents 400 400 400 [Event.canvasClick 700 400 false]).lasers = [laserA] := by
  unfold laserA
  unfold runEvents
  simp only [List.foldl]
  dsimp only [stepEvent]
  unfold handleCanvasClick
  have hx : ((700 : ℝ) - 400 - initState.panX) / initState.zoom = 300 := by
    norm_num [initState]
  have hy : ((400 : ℝ) - 400 - initState.panY) / initState.zoom = 0 := by
    norm_num [initState]
  rw [show initState.wasPanning = false from rfl,
    show initState.isDragging = false from rfl,
    show initState.isPanning = false from rfl]
  simp only [Bool.false_or, if_false]
  rw [hx, hy, hypot_nonneg_axis 300 (by norm_num)]
  rw [if_pos (by norm_num [initState] : (400 : ℝ) * 0.25 / initState.zoom < 300)]
  rfl

/-- Witness for C8: the laser created by one qualifying click is in the
reachable state and its angle 0 lies in [0, 360). -/
theorem angle_invariant_witness :
    laserA ∈ (runEvents 400 400 400 [Event.canvasClick 700 400 false]).lasers ∧
    0 ≤ laserA.angle ∧ laserA.angle < 360 := by
  have hmem : laserA ∈
      (runEvents 400 400 400 [Event.canvasClick 700 400 false]).lasers := by
    rw [runEvents_one_click]
    exact List.mem_singleton_self _
  exact ⟨hmem, angle_invariant 400 400 400 _ _ hmem⟩

/-- Id invariant: every laser id is below the counter and ids are
pairwise distinct. -/
def IdInv (st : AppState) : Prop :=
  (∀ l ∈ st.lasers, l.id < st.nextId) ∧ (st.lasers.map Laser.id).Nodup

/-- applyEdit never changes the id of the committed laser. -/
theorem applyEdit_id (f : EditField) (v rs : ℝ) (l : Laser) :
    (applyEdit f v rs l).id = l.id := by
  cases f <;> rfl

/-- Mapping an id-preserving update over the lasers preserves the id list. -/
theorem map_update_ids (f : Laser → Laser) (hf : ∀ l, (f l).id = l.id)
    (ls : List Laser) : (ls.map f).map Laser.id = ls.map Laser.id := by
  rw [List.map_map]
  exact List.map_congr_left (fun a _ => hf a)

/-- handleLaserMouseDown never modifies the id counter. -/
theorem handleLaserMouseDown_nextId (st : AppState) (id button : ℕ)
    (shiftKey : Bool) (clientX offX offY : ℝ) (dispX dispY dispAngle : String) :
    (handleLaserMouseDown st id button shiftKey clientX offX offY
      dispX dispY dispAngle).nextId = st.nextId := by
  unfold handleLaserMouseDown
  split_ifs
  · rfl
  · cases st.lasers.find? (fun l => l.id == id) <;> rfl
  · rfl
  · rfl

/-- handleMouseUp never modifies the id counter. -/
theorem handleMouseUp_nextId (st : AppState) (button : ℕ) :
    (handleMouseUp st button).nextId = st.nextId := by
  unfold handleMouseUp
  dsimp only
  split_ifs <;> rfl

/-- handleMouseMove never modifies the id counter. -/
theorem handleMouseMove_nextId (cx cy : ℝ) (st : AppState)
    (clientX clientY rectLeft rectTop : ℝ) :
    (handleMouseMove cx cy st clientX clientY rectLeft rectTop).nextId =
      st.nextId := by
  unfold handleMouseMove
  cases st.rotatingLaserId <;> cases st.lastMouseX <;>
    cases st.isDragging <;> cases st.draggedLaserId <;> dsimp only <;>
    split_ifs <;> rfl

/-- handleLaserEdit never modifies the id counter. -/
theorem handleLaserEdit_nextId (bhSize : ℝ) (st : AppState)
    (field : EditField) (value : String) (parsed : Option ℝ) :
    (handleLaserEdit bhSize st field value parsed).nextId = st.nextId := by
  unfold handleLaserEdit
  cases st.editingLaserId <;> cases parsed <;> rfl

/-- The id counter never decreases across an event. -/
theorem stepEvent_nextId_mono (cx cy bhSize : ℝ) (st : AppState) (ev : Event) :
    st.nextId ≤ (stepEvent cx cy bhSize st ev).nextId := by
  cases ev with
  | wheel d => exact Nat.le_refl _
  | canvasClick x y sh =>
    dsimp only [stepEvent]
    unfold handleCanvasClick
    dsimp only
    split_ifs <;> simp
  | laserDoubleClick id => exact Nat.le_refl _
  | laserMouseDown id b sh clientX offX offY dx dy da =>
    dsimp only [stepEvent]
    rw [handleLaserMouseDown_nextId]
  | laserEdit f v p =>
    dsimp only [stepEvent]
    rw [handleLaserEdit_nextId]
  | closeLaserEdit => exact Nat.le_refl _
  | mouseMove a b c d =>
    dsimp only [stepEvent]
    rw [handleMouseMove_nextId]
  | mouseDown b alt x y =>
    dsimp only [stepEvent]
    unfold handleMouseDown
    split_ifs <;> exact Nat.le_refl _
  | mouseUp b =>
    dsimp only [stepEvent]
    rw [handleMouseUp_nextId]
  | cleanAll => exact Nat.le_refl _

/-- Any id present after one event was already present or equals the
current counter value (ids are only ever allocated from the counter). -/
theorem stepEvent_id_origin (cx cy bhSize : ℝ) (st : AppState) (ev : Event)
    (l : Laser) (hl : l ∈ (stepEvent cx cy bhSize st ev).lasers) :
    l.id ∈ st.lasers.map Laser.id ∨ l.id = st.nextId := by
  cases ev with
  | wheel d => exact Or.inl (List.mem_map_of_mem Laser.id hl)
  | canvasClick x y sh =>
    dsimp only [stepEvent] at hl
    unfold handleCanvasClick at hl
    dsimp only at hl
    split_ifs at hl
    all_goals first
      | exact Or.inl (List.mem_map_of_mem Laser.id hl)
      | (dsimp only at hl
         rcases List.mem_append.mp hl with hl' | hl'
         · exact Or.inl (List.mem_map_of_mem Laser.id hl')
         · rw [List.mem_singleton] at hl'
           subst hl'
           exact Or.inr rfl)
  | laserDoubleClick id =>
    dsimp only [stepEvent] at hl
    unfold handleLaserDoubleClick at hl
    exact Or.inl (List.mem_map_of_mem Laser.id (List.mem_of_mem_filter hl))
  | laserMouseDown id b sh clientX offX offY dx dy da =>
    dsimp only [stepEvent] at hl
    rw [handleLaserMouseDown_lasers] at hl
    exact Or.inl (List.mem_map_of_mem Laser.id hl)
  | laserEdit f v p =>
    dsimp only [stepEvent] at hl
    unfold handleLaserEdit at hl
    cases he : st.editingLaserId with
    | none =>
      rw [he] at hl
      exact Or.inl (List.mem_map_of_mem Laser.id hl)
    | some eid =>
      rw [he] at hl
      cases p with
      | none => exact Or.inl (List.mem_map_of_mem Laser.id hl)
      | some numValue =>
        dsimp only at hl
        rcases List.mem_map.mp hl with ⟨l0, hl0, rfl⟩
        refine Or.inl ?_
        have : (if l0.id = eid then applyEdit f numValue (bhSize * 0.25) l0
            else l0).id = l0.id := by
          split_ifs <;> simp [applyEdit_id]
        rw [this]
        exact List.mem_map_of_mem Laser.id hl0
  | closeLaserEdit => exact Or.inl (List.mem_map_of_mem Laser.id hl)
  | mouseMove a b c d =>
    dsimp only [stepEvent] at hl
    unfold handleMouseMove at hl
    cases hr : st.rotatingLaserId with
    | some rid =>
      cases hm : st.lastMouseX with
      | some lastX =>
        rw [hr, hm] at hl
        dsimp only at hl
        rcases List.mem_map.mp hl with ⟨l0, hl0, rfl⟩
        refine Or.inl ?_
        have hpres : (if l0.id = rid then
            { l0 with angle := normalizeAngle (l0.angle + (a - lastX) * 0.5) }
            else l0).id = l0.id := by
          split_ifs <;> rfl
        rw [hpres]
        exact List.mem_map_of_mem Laser.id hl0
      | none =>
        rw [hr, hm] at hl
        dsimp only at hl
        cases hd : st.isDragging with
        | true =>
          cases hdid : st.draggedLaserId with
          | some did =>
            rw [hd, hdid] at hl
            dsimp only at hl
            rcases List.mem_map.mp hl with ⟨l0, hl0, rfl⟩
            refine Or.inl ?_
            have hpres : (if l0.id = did then
                { l0 with x := (a - c - cx - st.panX) / st.zoom,
                          y := (b - d - cy - st.panY) / st.zoom }
                else l0).id = l0.id := by
              split_ifs <;> rfl
            rw [hpres]
            exact List.mem_map_of_mem Laser.id hl0
          | none =>
            rw [hd, hdid] at hl
            dsimp only at hl
            split_ifs at hl <;> exact Or.inl (List.mem_map_of_mem Laser.id hl)
        | false =>
          rw [hd] at hl
          dsimp only at hl
          split_ifs at hl <;> exact Or.inl (List.mem_map_of_mem Laser.id hl)
    | none =>
      rw [hr] at hl
      dsimp only at hl
      cases hd : st.isDragging with
      | true =>
        cases hdid : st.draggedLaserId with
        | some did =>
          rw [hd, hdid] at hl
          dsimp only at hl
          rcases List.mem_map.mp hl with ⟨l0, hl0, rfl⟩
          refine Or.inl ?_
          have hpres : (if l0.id = did then
              { l0 with x := (a - c - cx - st.panX) / st.zoom,
                        y := (b - d - cy - st.panY) / st.zoom }
              else l0).id = l0.id := by
            split_ifs <;> rfl
          rw [hpres]
          exact List.mem_map_of_mem Laser.id hl0
        | none =>
          rw [hd, hdid] at hl
          dsimp only at hl
          split_ifs at hl <;> exact Or.inl (List.mem_map_of_mem Laser.id hl)
      | false =>
        rw [hd] at hl
        dsimp only at hl
        split_ifs at hl <;> exact Or.inl (List.mem_map_of_mem Laser.id hl)
  | mouseDown b alt x y =>
    dsimp only [stepEvent] at hl
    unfold handleMouseDown at hl
    split_ifs at hl <;> exact Or.inl (List.mem_map_of_mem Laser.id hl)
  | mouseUp b =>
    dsimp only [stepEvent] at hl
    rw [handleMouseUp_lasers] at hl
    exact Or.inl (List.mem_map_of_mem Laser.id hl)
  | cleanAll =>
    simp [stepEvent, handleCleanAll] at hl

/-- One event preserves the id invariant. -/
theorem stepEvent_idInv (cx cy bhSize : ℝ) (st : AppState) (ev : Event)
    (h : IdInv st) : IdInv (stepEvent cx cy bhSize st ev) := by
  cases ev with
  | wheel d => exact h
  | canvasClick x y sh =>
    dsimp only [stepEvent]
    unfold handleCanvasClick
    dsimp only
    split_ifs
    all_goals first
      | exact h
      | (constructor
         · intro l hl
           dsimp only at hl ⊢
           rcases List.mem_append.mp hl with hl' | hl'
           · exact Nat.lt_trans (h.1 l hl') (Nat.lt_succ_self _)
           · rw [List.mem_singleton] at hl'
             subst hl'
             exact Nat.lt_succ_self _
         · dsimp only
           rw [List.map_append]
           refine List.nodup_append.mpr ⟨h.2, List.nodup_singleton _, ?_⟩
           intro a ha hb
           rcases List.mem_map.mp ha with ⟨l0, hl0, rfl⟩
           simp only [List.map_cons, List.map_nil, List.mem_singleton] at hb
           exact absurd hb (Nat.ne_of_lt (h.1 l0 hl0)))
  | laserDoubleClick id =>
    constructor
    · intro l hl
      dsimp only [stepEvent] at hl ⊢
      unfold handleLaserDoubleClick at hl
      exact h.1 l (List.mem_of_mem_filter hl)
    · dsimp only [stepEvent]
      unfold handleLaserDoubleClick
      dsimp only
      exact h.2.sublist (List.Sublist.map Laser.id (List.filter_sublist _))
  | laserMouseDown id b sh clientX offX offY dx dy da =>
    constructor
    · intro l hl
      dsimp only [stepEvent] at hl ⊢
      rw [handleLaserMouseDown_lasers] at hl
      rw [handleLaserMouseDown_nextId]
      exact h.1 l hl
    · dsimp only [stepEvent]
      rw [handleLaserMouseDown_lasers]
      exact h.2
  | laserEdit f v p =>
    dsimp only [stepEvent]
    unfold handleLaserEdit
    cases he : st.editingLaserId with
    | none => exact h
    | some eid =>
      cases p with
      | none => exact h
      | some numValue =>
        dsimp only
        have hf : ∀ l : Laser, ((fun laser =>
            if laser.id = eid then applyEdit f numValue (bhSize * 0.25) laser
            else laser) l).id = l.id := by
          intro l
          dsimp only
          split_ifs <;> simp [applyEdit_id]
        constructor
        · intro l hl
          dsimp only at hl ⊢
          rcases List.mem_map.mp hl with ⟨l0, hl0, rfl⟩
          rw [hf l0]
          exact h.1 l0 hl0
        · dsimp only
          rw [map_update_ids _ hf]
          exact h.2
  | closeLaserEdit => exact h
  | mouseMove a b c d =>
    dsimp only [stepEvent]
    unfold handleMouseMove
    cases hr : st.rotatingLaserId with
    | some rid =>
      cases hm : st.lastMouseX with
      | some lastX =>
        dsimp only
        have hf : ∀ l : Laser, ((fun laser =>
            if laser.id = rid then
              { laser with angle := normalizeAngle (laser.angle + (a - lastX) * 0.5) }
            else laser) l).id = l.id := by
          intro l
          dsimp only
          split_ifs <;> rfl
        constructor
        · intro l hl
          dsimp only at hl ⊢
          rcases List.mem_map.mp hl with ⟨l0, hl0, rfl⟩
          rw [hf l0]
          exact h.1 l0 hl0
        · dsimp only
          rw [map_update_ids _ hf]
          exact h.2
      | none =>
        dsimp only
        cases hd : st.isDragging with
        | true =>
          cases hdid : st.draggedLaserId with
          | some did =>
            dsimp only
            have hf : ∀ l : Laser, ((fun laser =>
                if laser.id = did then
                  { laser with x := (a - c - cx - st.panX) / st.zoom,
                               y := (b - d - cy - st.panY) / st.zoom }
                else laser) l).id = l.id := by
              intro l
              dsimp only
              split_ifs <;> rfl
            constructor
            · intro l hl
              dsimp only at hl ⊢
              rcases List.mem_map.mp hl with ⟨l0, hl0, rfl⟩
              rw [hf l0]
              exact h.1 l0 hl0
            · dsimp only
              rw [map_update_ids _ hf]
              exact h.2
          | none =>
            dsimp only
            split_ifs <;> exact h
        | false =>
          dsimp only
          split_ifs <;> exact h
    | none =>
      dsimp only
      cases hd : st.isDragging with
      | true =>
        cases hdid : st.draggedLaserId with
        | some did =>
          dsimp only
          have hf : ∀ l : Laser, ((fun laser =>
              if laser.id = did then
                { laser with x := (a - c - cx - st.panX) / st.zoom,
                             y := (b - d - cy - st.panY) / st.zoom }
              else laser) l).id = l.id := by
            intro l
            dsimp only
            split_ifs <;> rfl
          constructor
          · intro l hl
            dsimp only at hl ⊢
            rcases List.mem_map.mp hl with ⟨l0, hl0, rfl⟩
            rw [hf l0]
            exact h.1 l0 hl0
          · dsimp only
            rw [map_update_ids _ hf]
            exact h.2
        | none =>
          dsimp only
          split_ifs <;> exact h
      | false =>
        dsimp only
        split_ifs <;> exact h
  | mouseDown b alt x y =>
    dsimp only [stepEvent]
    unfold handleMouseDown
    split_ifs <;> exact h
  | mouseUp b =>
    constructor
    · intro l hl
      dsimp only [stepEvent] at hl ⊢
      rw [handleMouseUp_lasers] at hl
      rw [handleMouseUp_nextId]
      exact h.1 l hl
    · dsimp only [stepEvent]
      rw [handleMouseUp_lasers]
      exact h.2
  | cleanAll =>
    constructor
    · intro l hl
      simp [stepEvent, handleCleanAll] at hl
    · simp [stepEvent, handleCleanAll]

/-- The id invariant is preserved by any event sequence. -/
theorem foldl_idInv (cx cy bhSize : ℝ) :
    ∀ (events : List Event) (st : AppState), IdInv st →
      IdInv (List.foldl (stepEvent cx cy bhSize) st events) := by
  intro events
  induction events with
  | nil => intro st h; exact h
  | cons ev rest ih =>
    intro st h
    exact ih _ (stepEvent_idInv cx cy bhSize st ev h)

/-- Claim C9: laser ids are unique, allocated monotonically from the
counter, and never reused: in every reachable state no two lasers share an
id and every id is below the counter; no event ever decreases the counter;
and any id appearing after an event was either already present or is the
counter value consumed by that event (so deletion and clear-all never make
an old id available again). -/
theorem id_allocation (cx cy bhSize : ℝ) :
    (∀ events : List Event,
      (∀ l ∈ (runEvents cx cy bhSize events).lasers,
        l.id < (runEvents cx cy bhSize events).nextId) ∧
      ((runEvents cx cy bhSize events).lasers.map Laser.id).Nodup) ∧
    (∀ (st : AppState) (ev : Event),
      st.nextId ≤ (stepEvent cx cy bhSize st ev).nextId) ∧
    (∀ (st : AppState) (ev : Event) (l : Laser),
      l ∈ (stepEvent cx cy bhSize st ev).lasers →
      l.id ∈ st.lasers.map Laser.id ∨ l.id = st.nextId) := by
  refine ⟨?_, stepEvent_nextId_mono cx cy bhSize, stepEvent_id_origin cx cy bhSize⟩
  intro events
  refine foldl_idInv cx cy bhSize events initState ⟨?_, ?_⟩
  · intro l hl
    simp [initState] at hl
  · simp [initState]

/-- Witness for C9: after one qualifying click, the created laser's id 0 is
below the advanced counter. -/
theorem id_allocation_witness :
    laserA.id < (runEvents 400 400 400 [Event.canvasClick 700 400 false]).nextId :=
  ((id_allocation 400 400 400).1 [Event.canvasClick 700 400 false]).1 laserA
    (by rw [runEvents_one_click]; exact List.mem_singleton_self _)

/-- Claim C10: gesture mutations are framed to the targeted ray and field.
A rotate-drag move step changes only the angle of the rotated laser
(applying normalizeAngle to angle + deltaX * 0.5) and a drag move step
changes only the x and y of the dragged laser; ids, fired flags, direction
tags, every field of every other laser, and the list length are
unchanged. -/
theorem gesture_frame (cx cy : ℝ) (st : AppState)
    (clientX clientY rectLeft rectTop : ℝ) :
    (∀ (rid : ℕ) (lastX : ℝ) (i : ℕ) (l : Laser),
      st.rotatingLaserId = some rid → st.lastMouseX = some lastX →
      st.lasers[i]? = some l →
      (handleMouseMove cx cy st clientX clientY rectLeft rectTop).lasers.length =
        st.lasers.length ∧
      ∃ l', (handleMouseMove cx cy st clientX clientY rectLeft
          rectTop).lasers[i]? = some l' ∧
        l'.id = l.id ∧ l'.x = l.x ∧ l'.y = l.y ∧ l'.fired = l.fired ∧
        l'.direction = l.direction ∧
        (l.id ≠ rid → l'.angle = l.angle) ∧
        (l.id = rid →
          l'.angle = normalizeAngle (l.angle + (clientX - lastX) * 0.5))) ∧
    (∀ (did i : ℕ) (l : Laser),
      (st.rotatingLaserId = none ∨ st.lastMouseX = none) →
      st.isDragging = true → st.draggedLaserId = some did →
      st.lasers[i]? = some l →
      (handleMouseMove cx cy st clientX clientY rectLeft rectTop).lasers.length =
        st.lasers.length ∧
      ∃ l', (handleMouseMove cx cy st clientX clientY rectLeft
          rectTop).lasers[i]? = some l' ∧
        l'.id = l.id ∧ l'.angle = l.angle ∧ l'.fired = l.fired ∧
        l'.direction = l.direction ∧
        (l.id ≠ did → l'.x = l.x ∧ l'.y = l.y) ∧
        (l.id = did →
          l'.x = (clientX - rectLeft - cx - st.panX) / st.zoom ∧
          l'.y = (clientY - rectTop - cy - st.panY) / st.zoom)) := by
  constructor
  · intro rid lastX i l hr hm hi
    unfold handleMouseMove
    rw [hr, hm]
    dsimp only
    refine ⟨List.length_map _ _, ?_⟩
    rw [List.getElem?_map, hi]
    refine ⟨_, rfl, ?_⟩
    dsimp only
    by_cases hid : l.id = rid
    · rw [if_pos hid]
      exact ⟨rfl, rfl, rfl, rfl, rfl, fun hne => absurd hid hne, fun _ => rfl⟩
    · rw [if_neg hid]
      exact ⟨rfl, rfl, rfl, rfl, rfl, fun _ => rfl, fun heq => absurd heq hid⟩
  · intro did i l hnr hd hdid hi
    have hdrag :
        ((st.lasers.map (fun laser =>
          if laser.id = did then
            { laser with x := (clientX - rectLeft - cx - st.panX) / st.zoom,
                         y := (clientY - rectTop - cy - st.panY) / st.zoom }
          else laser)).length = st.lasers.length ∧
        ∃ l', (st.lasers.map (fun laser =>
            if laser.id = did then
              { laser with x := (clientX - rectLeft - cx - st.panX) / st.zoom,
                           y := (clientY - rectTop - cy - st.panY) / st.zoom }
            else laser))[i]? = some l' ∧
          l'.id = l.id ∧ l'.angle = l.angle ∧ l'.fired = l.fired ∧
          l'.direction = l.direction ∧
          (l.id ≠ did → l'.x = l.x ∧ l'.y = l.y) ∧
          (l.id = did →
            l'.x = (clientX - rectLeft - cx - st.panX) / st.zoom ∧
            l'.y = (clientY - rectTop - cy - st.panY) / st.zoom)) := by
      refine ⟨List.length_map _ _, ?_⟩
      rw [List.getElem?_map, hi]
      refine ⟨_, rfl, ?_⟩
      dsimp only
      by_cases hid : l.id = did
      · rw [if_pos hid]
        exact ⟨rfl, rfl, rfl, rfl, fun hne => absurd hid hne, fun _ => ⟨rfl, rfl⟩⟩
      · rw [if_neg hid]
        exact ⟨rfl, rfl, rfl, rfl, fun _ => ⟨rfl, rfl⟩, fun heq => absurd heq hid⟩
    unfold handleMouseMove
    rcases hnr with hnr | hnm
    · cases hm : st.lastMouseX with
      | some lx =>
        rw [hnr]
        dsimp only
        rw [hd, hdid]
        dsimp only
        exact hdrag
      | none =>
        rw [hnr]
        dsimp only
        rw [hd, hdid]
        dsimp only
        exact hdrag
    · cases hr : st.rotatingLaserId with
      | some rid =>
        rw [hnm]
        dsimp only
        rw [hd, hdid]
        dsimp only
        exact hdrag
      | none =>
        rw [hnm]
        dsimp only
        rw [hd, hdid]
        dsimp only
        exact hdrag

/-- A concrete laser for the C10 witness. -/
def laserB : Laser :=
  { id := 5, x := 10, y := 20, fired := true, angle := 30, direction := Side.right }

/-- A concrete state with one laser and an active rotation gesture. -/
def stRotate : AppState :=
  { initState with lasers := [laserB], rotatingLaserId := some 5,
                   lastMouseX := some 100 }

/-- Witness for C10: a rotate move step on the concrete state leaves every
field of the rotated laser unchanged except the angle, which becomes the
normalized incremented angle. -/
theorem gesture_frame_witness :
    ∃ l', (handleMouseMove 400 400 stRotate 104 0 0 0).lasers[0]? = some l' ∧
      l'.id = laserB.id ∧ l'.x = laserB.x ∧ l'.y = laserB.y ∧
      l'.fired = laserB.fired ∧ l'.direction = laserB.direction ∧
      (laserB.id ≠ 5 → l'.angle = laserB.angle) ∧
      (laserB.id = 5 →
        l'.angle = normalizeAngle (laserB.angle + ((104 : ℝ) - 100) * 0.5)) :=
  ((gesture_frame 400 400 stRotate 104 0 0 0).1 5 100 0 laserB rfl rfl rfl).2

/-- Evaluation helper: hypot at the origin. -/
theorem hypot_zero_zero : hypot 0 0 = 0 := by
  unfold hypot
  norm_num

/-- Evaluation helper: atan2 of zero over a positive abscissa. -/
theorem atan2_zero_of_pos (x : ℝ) (hx : 0 < x) : atan2 0 x = 0 := by
  unfold atan2
  rw [if_pos hx, zero_div, Real.arctan_zero]

/-- When the capture condition holds at the current state, the loop stops
without appending a point (the emitted suffix is empty). -/
theorem lightPathLoop_capture (ctx : LoopCtx) (fuel : ℕ) (s : ℝ × ℝ × ℝ)
    (h : s.1 ≤ ctx.effRs * 1.001) : lightPathLoop ctx fuel s = [] := by
  cases fuel with
  | zero => rfl
  | succ n =>
    rw [lightPathLoop]
    dsimp only
    rw [if_pos h]

/-- One live iteration of the loop: when neither the capture nor the escape
condition holds, the screen point is appended and integration proceeds. -/
theorem lightPathLoop_cons (ctx : LoopCtx) (n : ℕ) (s : ℝ × ℝ × ℝ)
    (hcap : ¬ s.1 ≤ ctx.effRs * 1.001)
    (hesc : ¬ (hypot (s.1 * Real.cos s.2.1 + ctx.centerX - ctx.centerX)
          (s.1 * Real.sin s.2.1 + ctx.centerY - ctx.centerY) > ctx.maxDistance ∨
        s.1 * Real.cos s.2.1 + ctx.centerX < -(1 / ctx.zoom * ctx.width) ∨
        s.1 * Real.cos s.2.1 + ctx.centerX > ctx.width * (1 / ctx.zoom) ∨
        s.1 * Real.sin s.2.1 + ctx.centerY < -(1 / ctx.zoom * ctx.height) ∨
        s.1 * Real.sin s.2.1 + ctx.centerY > ctx.height * (1 / ctx.zoom))) :
    lightPathLoop ctx (n + 1) s =
      { x := s.1 * Real.cos s.2.1 + ctx.centerX,
        y := s.1 * Real.sin s.2.1 + ctx.centerY, distToCenter := ctx.zoom } ::
        lightPathLoop ctx n (rk4 s ctx.h (derivs ctx.effRs ctx.L)) := by
  rw [lightPathLoop]
  dsimp only
  rw [if_neg hcap, if_neg hesc]

/-- Claim C3 (amended): the capture condition is checked before the point
is appended and, when it holds, nothing further is appended (the sequence
ends at the prior point); with gravity disabled the condition degenerates
to r less-or-equal zero, which is still reachable (see the
counterexample), rather than unreachable. -/
theorem capture_ends_sequence :
    (∀ (ctx : LoopCtx) (fuel : ℕ) (s : ℝ × ℝ × ℝ),
      s.1 ≤ ctx.effRs * 1.001 → lightPathLoop ctx fuel s = []) ∧
    (∀ bhSize r : ℝ, r ≤ effectiveRs bhSize false * 1.001 ↔ r ≤ 0) := by
  refine ⟨lightPathLoop_capture, ?_⟩
  intro bhSize r
  simp [effectiveRs]

/-- Witness for C3: a state already inside the effective radius emits
nothing, and the gravity-off capture threshold is exactly zero. -/
theorem capture_ends_sequence_witness :
    lightPathLoop ⟨400, 400, 100, 0, 1, 1200, 800, 800, 1⟩ 4000 (50, 0, 0) = [] ∧
    ((-5 : ℝ) ≤ effectiveRs 400 false * 1.001 ↔ (-5 : ℝ) ≤ 0) :=
  ⟨capture_ends_sequence.1 ⟨400, 400, 100, 0, 1, 1200, 800, 800, 1⟩ 4000 (50, 0, 0)
      (by norm_num),
   capture_ends_sequence.2 400 (-5)⟩

/-- Counterexample for C3: with gravity disabled and the start point
exactly at the body center, the capture condition r at-most
rs_eff * 1.001 holds at the very first step (0 at-most 0), the escape
condition does not hold there (the screen point (400, 400) is far inside
the canvas), and the returned sequence is empty: the capture break fired
with gravityEnabled = false, contradicting the claim that capture
termination is only reachable when gravity is enabled. -/
theorem capture_reachable_without_gravity :
    hypot ((400 : ℝ) - 800 / 2) ((400 : ℝ) - 800 / 2) ≤
      effectiveRs 400 false * 1.001 ∧
    ¬(hypot ((0 : ℝ) * Real.cos (atan2 0 0) + 800 / 2 - 800 / 2)
        ((0 : ℝ) * Real.sin (atan2 0 0) + 800 / 2 - 800 / 2) >
          max (800 : ℝ) 800 * (1.5 / 1) ∨
      (0 : ℝ) * Real.cos (atan2 0 0) + 800 / 2 < -(1 / 1 * 800) ∨
      (0 : ℝ) * Real.cos (atan2 0 0) + 800 / 2 > 800 * (1 / 1) ∨
      (0 : ℝ) * Real.sin (atan2 0 0) + 800 / 2 < -(1 / 1 * 800) ∨
      (0 : ℝ) * Real.sin (atan2 0 0) + 800 / 2 > 800 * (1 / 1)) ∧
    calculateLightPath 400 400 0 800 800 400 1 false = [] := by
  have h0 : (400 : ℝ) - 800 / 2 = 0 := by norm_num
  have hhyp : hypot ((400 : ℝ) - 800 / 2) ((400 : ℝ) - 800 / 2) = 0 := by
    rw [h0, hypot_zero_zero]
  refine ⟨?_, ?_, ?_⟩
  · rw [hhyp]
    simp [effectiveRs]
  · push_neg
    have hc : (0 : ℝ) * Real.cos (atan2 0 0) + 800 / 2 - 800 / 2 = 0 := by ring
    have hs : (0 : ℝ) * Real.sin (atan2 0 0) + 800 / 2 - 800 / 2 = 0 := by ring
    rw [hc, hs, hypot_zero_zero]
    norm_num
  · unfold calculateLightPath
    dsimp only
    apply lightPathLoop_capture
    dsimp only
    rw [hhyp]
    simp [effectiveRs]

/-- Evaluation helper: the first point emitted for the start point
(600, 400), angle 0, canvas 800 x 800, body size 400, zoom 1, gravity off
is the start point itself, carrying distToCenter = 1 (the zoom value). -/
theorem calculateLightPath_600_head :
    (calculateLightPath 600 400 0 800 800 400 1 false).head? =
      some { x := 600, y := 400, distToCenter := 1 } := by
  unfold calculateLightPath
  dsimp only
  rw [show (600 : ℝ) - 800 / 2 = 200 by norm_num,
    show (400 : ℝ) - 800 / 2 = 0 by norm_num,
    atan2_zero_of_pos 200 (by norm_num),
    hypot_nonneg_axis 200 (by norm_num),
    show (0 : ℝ) * Real.pi / 180 = 0 by ring,
    Real.cos_zero, Real.sin_zero]
  rw [show (4000 : ℕ) = 3999 + 1 from by norm_num]
  rw [lightPathLoop_cons]
  · dsimp only
    rw [Real.cos_zero, Real.sin_zero, List.head?_cons]
    norm_num
  · dsimp only
    simp [effectiveRs]
  · dsimp only
    rw [Real.cos_zero, Real.sin_zero]
    push_neg
    rw [show (200 : ℝ) * 1 + 800 / 2 - 800 / 2 = 200 by ring,
      show (200 : ℝ) * 0 + 800 / 2 - 800 / 2 = 0 by ring,
      hypot_nonneg_axis 200 (by norm_num)]
    norm_num

/-- Claim C1 (code evaluation at the failing input): the first returned
point for start (600, 400), angle 0, canvas 800 x 800, body size 400,
zoom 1, gravity off is (600, 400) with distToCenter = 1 (the zoom factor),
whereas its distance from the body center divided by the body radius
bhSize * 0.25 is 200 / 100 = 2. -/
theorem distToCenter_is_zoom_not_distance :
    (calculateLightPath 600 400 0 800 800 400 1 false).head? =
      some { x := 600, y := 400, distToCenter := 1 } ∧
    hypot ((600 : ℝ) - 800 / 2) ((400 : ℝ) - 800 / 2) / (400 * 0.25) = 2 ∧
    (1 : ℝ) ≠ 2 := by
  refine ⟨calculateLightPath_600_head, ?_, by norm_num⟩
  rw [show (600 : ℝ) - 800 / 2 = 200 by norm_num,
    show (400 : ℝ) - 800 / 2 = 0 by norm_num,
    hypot_nonneg_axis 200 (by norm_num)]
  norm_num

/-- The gravity-off effective radius is zero. -/
theorem effectiveRs_false (bhSize : ℝ) : effectiveRs bhSize false = 0 := by
  simp [effectiveRs]

/-- With zero angular momentum the rk4 step is a pure radial translation:
phi and p_r are unchanged and r advances by h * p_r. -/
theorem rk4_radial (s : ℝ × ℝ × ℝ) (h effRs : ℝ) :
    rk4 s h (derivs effRs 0) = (s.1 + h * s.2.2, s.2.1, s.2.2) := by
  unfold rk4 derivs
  dsimp only
  norm_num
  ring

/-- With zero angular momentum, every point emitted by the loop sits at a
radial offset of m whole steps from the initial state. -/
theorem lightPathLoop_radial (ctx : LoopCtx) (hL : ctx.L = 0) :
    ∀ (fuel : ℕ) (r phi p : ℝ) (pt : PathPoint),
      pt ∈ lightPathLoop ctx fuel (r, phi, p) →
      ∃ m : ℕ, pt = { x := (r + m * ctx.h * p) * Real.cos phi + ctx.centerX,
                      y := (r + m * ctx.h * p) * Real.sin phi + ctx.centerY,
                      distToCenter := ctx.zoom } := by
  intro fuel
  induction fuel with
  | zero =>
    intro r phi p pt hpt
    simp [lightPathLoop] at hpt
  | succ n ih =>
    intro r phi p pt hpt
    rw [lightPathLoop] at hpt
    dsimp only at hpt
    rw [hL, rk4_radial] at hpt
    split_ifs at hpt
    · simp at hpt
    · simp at hpt
    · rcases List.mem_cons.mp hpt with hpt' | hpt'
      · refine ⟨0, ?_⟩
        rw [hpt']
        norm_num
      · obtain ⟨m, hm⟩ := ih (r + ctx.h * p) phi p pt hpt'
        refine ⟨m + 1, ?_⟩
        rw [hm]
        have harg : r + ctx.h * p + (m : ℝ) * ctx.h * p =
            r + ((m : ℕ) + 1 : ℕ) * ctx.h * p := by
          push_cast
          ring
        rw [harg]

/-- Polar reconstruction of the abscissa: hypot times the cosine of atan2
recovers x away from the origin. -/
theorem hypot_mul_cos_atan2 (x y : ℝ) (h : ¬(x = 0 ∧ y = 0)) :
    hypot x y * Real.cos (atan2 y x) = x := by
  unfold atan2 hypot
  rcases lt_trichotomy x 0 with hx | hx | hx
  · have hx0 : x ≠ 0 := hx.ne
    have hsq : Real.sqrt (x * x + y * y) = -x * Real.sqrt (1 + (y / x) ^ 2) := by
      rw [show x * x + y * y = x ^ 2 * (1 + (y / x) ^ 2) by
          field_simp
          ring,
        Real.sqrt_mul (sq_nonneg x), Real.sqrt_sq_eq_abs, abs_of_neg hx]
    have hpos : 0 < Real.sqrt (1 + (y / x) ^ 2) :=
      Real.sqrt_pos.mpr (by positivity)
    have hs0 : Real.sqrt (1 + (y / x) ^ 2) ≠ 0 := hpos.ne'
    rw [if_neg (by linarith), if_pos hx, hsq]
    rcases le_or_lt 0 y with hy | hy
    · rw [if_pos hy, Real.cos_add_pi, Real.cos_arctan]
      field_simp
    · rw [if_neg (not_le.mpr hy), Real.cos_sub_pi, Real.cos_arctan]
      field_simp
  · subst hx
    rw [if_neg (lt_irrefl 0), if_neg (lt_irrefl 0)]
    have hy : y ≠ 0 := fun hy => h ⟨rfl, hy⟩
    rcases lt_trichotomy y 0 with hy' | hy' | hy'
    · rw [if_neg (by linarith), if_pos hy', Real.cos_neg, Real.cos_pi_div_two]
      ring
    · exact absurd hy' hy
    · rw [if_pos hy', Real.cos_pi_div_two]
      ring
  · have hx0 : x ≠ 0 := hx.ne'
    have hsq : Real.sqrt (x * x + y * y) = x * Real.sqrt (1 + (y / x) ^ 2) := by
      rw [show x * x + y * y = x ^ 2 * (1 + (y / x) ^ 2) by
          field_simp
          ring,
        Real.sqrt_mul (sq_nonneg x), Real.sqrt_sq_eq_abs, abs_of_pos hx]
    have hpos : 0 < Real.sqrt (1 + (y / x) ^ 2) :=
      Real.sqrt_pos.mpr (by positivity)
    have hs0 : Real.sqrt (1 + (y / x) ^ 2) ≠ 0 := hpos.ne'
    rw [if_pos hx, hsq, Real.cos_arctan]
    field_simp

/-- Polar reconstruction of the ordinate: hypot times the sine of atan2
recovers y away from the origin. -/
theorem hypot_mul_sin_atan2 (x y : ℝ) (h : ¬(x = 0 ∧ y = 0)) :
    hypot x y * Real.sin (atan2 y x) = y := by
  unfold atan2 hypot
  rcases lt_trichotomy x 0 with hx | hx | hx
  · have hx0 : x ≠ 0 := hx.ne
    have hsq : Real.sqrt (x * x + y * y) = -x * Real.sqrt (1 + (y / x) ^ 2) := by
      rw [show x * x + y * y = x ^ 2 * (1 + (y / x) ^ 2) by
          field_simp
          ring,
        Real.sqrt_mul (sq_nonneg x), Real.sqrt_sq_eq_abs, abs_of_neg hx]
    have hpos : 0 < Real.sqrt (1 + (y / x) ^ 2) :=
      Real.sqrt_pos.mpr (by positivity)
    have hs0 : Real.sqrt (1 + (y / x) ^ 2) ≠ 0 := hpos.ne'
    rw [if_neg (by linarith), if_pos hx, hsq]
    rcases le_or_lt 0 y with hy | hy
    · rw [if_pos hy, Real.sin_add_pi, Real.sin_arctan]
      field_simp
      ring
    · rw [if_neg (not_le.mpr hy), Real.sin_sub_pi, Real.sin_arctan]
      field_simp
      ring
  · subst hx
    rw [if_neg (lt_irrefl 0), if_neg (lt_irrefl 0)]
    have hy : y ≠ 0 := fun hy => h ⟨rfl, hy⟩
    rcases lt_trichotomy y 0 with hy' | hy' | hy'
    · rw [if_neg (by linarith), if_pos hy', Real.sin_neg, Real.sin_pi_div_two]
      rw [show (0 : ℝ) * 0 + y * y = y ^ 2 by ring, Real.sqrt_sq_eq_abs,
        abs_of_neg hy']
      ring
    · exact absurd hy' hy
    · rw [if_pos hy', Real.sin_pi_div_two]
      rw [show (0 : ℝ) * 0 + y * y = y ^ 2 by ring, Real.sqrt_sq_eq_abs,
        abs_of_pos hy']
      ring
  · have hx0 : x ≠ 0 := hx.ne'
    have hsq : Real.sqrt (x * x + y * y) = x * Real.sqrt (1 + (y / x) ^ 2) := by
      rw [show x * x + y * y = x ^ 2 * (1 + (y / x) ^ 2) by
          field_simp
          ring,
        Real.sqrt_mul (sq_nonneg x), Real.sqrt_sq_eq_abs, abs_of_pos hx]
    have hpos : 0 < Real.sqrt (1 + (y / x) ^ 2) :=
      Real.sqrt_pos.mpr (by positivity)
    have hs0 : Real.sqrt (1 + (y / x) ^ 2) ≠ 0 := hpos.ne'
    rw [if_pos hx, hsq, Real.sin_arctan]
    field_simp

/-- Claim C2 (amended): with gravityEnabled = false the solver uses
rs_eff = 0, and for a purely radial emission (vanishing tangential
component n_phi of the initial direction) every returned point lies
exactly on the Euclidean ray from the origin point in direction angle.
For non-radial directions the discrete RK4 points can deviate from the ray
by far more than any 1e-6 relative tolerance (see the counterexample). -/
theorem gravity_off_radial_ray (startX startY angleDeg width height bhSize zoom : ℝ)
    (hbh : 0 ≤ bhSize)
    (hrad : -Real.cos (angleDeg * Real.pi / 180) *
        Real.sin (atan2 (startY - height / 2) (startX - width / 2)) +
      Real.sin (angleDeg * Real.pi / 180) *
        Real.cos (atan2 (startY - height / 2) (startX - width / 2)) = 0) :
    ∀ pt ∈ calculateLightPath startX startY angleDeg width height bhSize zoom false,
      ∃ t : ℝ, 0 ≤ t ∧
        pt.x = startX + t * Real.cos (angleDeg * Real.pi / 180) ∧
        pt.y = startY + t * Real.sin (angleDeg * Real.pi / 180) := by
  intro pt hpt
  unfold calculateLightPath at hpt
  dsimp only at hpt
  by_cases h00 : startX - width / 2 = 0 ∧ startY - height / 2 = 0
  · rw [h00.1, h00.2] at hpt
    rw [lightPathLoop_capture] at hpt
    · simp at hpt
    · dsimp only
      rw [hypot_zero_zero, effectiveRs_false]
      norm_num
  · rw [hrad, zero_mul] at hpt
    obtain ⟨m, rfl⟩ := lightPathLoop_radial _ rfl 4000 _ _ _ pt hpt
    have hK0 : (0 : ℝ) ≤ (m : ℝ) * (bhSize * 0.25 * 0.01) :=
      mul_nonneg (Nat.cast_nonneg m)
        (mul_nonneg (mul_nonneg hbh (by norm_num)) (by norm_num))
    refine ⟨(m : ℝ) * (bhSize * 0.25 * 0.01), hK0, ?_, ?_⟩
    · dsimp only
      have hRc := hypot_mul_cos_atan2 (startX - width / 2) (startY - height / 2) h00
      have hpy := Real.sin_sq_add_cos_sq (atan2 (startY - height / 2) (startX - width / 2))
      linear_combination hRc +
        ((m : ℝ) * (bhSize * 0.25 * 0.01)) *
          Real.sin (atan2 (startY - height / 2) (startX - width / 2)) * hrad +
        ((m : ℝ) * (bhSize * 0.25 * 0.01)) *
          Real.cos (angleDeg * Real.pi / 180) * hpy
    · dsimp only
      have hRs := hypot_mul_sin_atan2 (startX - width / 2) (startY - height / 2) h00
      have hpy := Real.sin_sq_add_cos_sq (atan2 (startY - height / 2) (startX - width / 2))
      linear_combination hRs -
        ((m : ℝ) * (bhSize * 0.25 * 0.01)) *
          Real.cos (atan2 (startY - height / 2) (startX - width / 2)) * hrad +
        ((m : ℝ) * (bhSize * 0.25 * 0.01)) *
          Real.sin (angleDeg * Real.pi / 180) * hpy

/-- Witness for C2: applied to the radial input (600, 400) with angle 0,
the first returned point (600, 400) lies on the ray at parameter t = 0. -/
theorem gravity_off_radial_ray_witness :
    ∃ t : ℝ, 0 ≤ t ∧
      (600 : ℝ) = 600 + t * Real.cos ((0 : ℝ) * Real.pi / 180) ∧
      (400 : ℝ) = 400 + t * Real.sin ((0 : ℝ) * Real.pi / 180) := by
  have hmem : ({ x := 600, y := 400, distToCenter := 1 } : PathPoint) ∈
      calculateLightPath 600 400 0 800 800 400 1 false := by
    cases hpath : calculateLightPath 600 400 0 800 800 400 1 false with
    | nil =>
      have hh := calculateLightPath_600_head
      rw [hpath] at hh
      simp at hh
    | cons a l =>
      have hh := calculateLightPath_600_head
      rw [hpath] at hh
      simp only [List.head?_cons, Option.some.injEq] at hh
      rw [← hh]
      exact List.mem_cons_self _ _
  have hrad : -Real.cos ((0 : ℝ) * Real.pi / 180) *
      Real.sin (atan2 ((400 : ℝ) - 800 / 2) ((600 : ℝ) - 800 / 2)) +
    Real.sin ((0 : ℝ) * Real.pi / 180) *
      Real.cos (atan2 ((400 : ℝ) - 800 / 2) ((600 : ℝ) - 800 / 2)) = 0 := by
    rw [show (400 : ℝ) - 800 / 2 = 0 by norm_num,
      show (600 : ℝ) - 800 / 2 = 200 by norm_num,
      atan2_zero_of_pos 200 (by norm_num),
      show (0 : ℝ) * Real.pi / 180 = 0 by ring,
      Real.sin_zero, Real.cos_zero]
    ring
  have h := gravity_off_radial_ray 600 400 0 800 800 400 1 (by norm_num) hrad
    { x := 600, y := 400, distToCenter := 1 } hmem
  exact h

/-- Exact evaluation of one RK4 step for the tangential counterexample
input: start radius 3/10, angle 0, radial momentum 0, step 1, gravity off,
angular momentum 3/10. -/
theorem rk4_tangential_eval :
    rk4 ((3 / 10 : ℝ), 0, 0) 1 (derivs 0 (3 / 10)) =
      (2514029 / 1768680, 10608055 / 6036054, 20453953205 / 12108324324) := by
  unfold rk4 derivs
  norm_num

/-- Evaluation helper: for the tangential input the second returned point
is the polar point (r1, phi1) with r1 = 2514029/1768680 and
phi1 = 10608055/6036054. -/
theorem calculateLightPath_tangential_pair :
    (calculateLightPath 400.3 400 90 800 800 400 1 false)[1]? =
      some { x := (2514029 / 1768680 : ℝ) * Real.cos (10608055 / 6036054) + 400,
             y := (2514029 / 1768680 : ℝ) * Real.sin (10608055 / 6036054) + 400,
             distToCenter := 1 } := by
  unfold calculateLightPath
  dsimp only
  rw [show (400.3 : ℝ) - 800 / 2 = 3 / 10 by norm_num,
    show (400 : ℝ) - 800 / 2 = 0 by norm_num,
    atan2_zero_of_pos (3 / 10) (by norm_num),
    hypot_nonneg_axis (3 / 10) (by norm_num),
    show (90 : ℝ) * Real.pi / 180 = Real.pi / 2 by ring,
    Real.cos_pi_div_two, Real.sin_pi_div_two, Real.cos_zero, Real.sin_zero,
    effectiveRs_false]
  norm_num [max_self, -Prod.mk_zero_zero]
  rw [show (4000 : ℕ) = 3999 + 1 from by norm_num]
  rw [lightPathLoop_cons]
  · dsimp only
    rw [rk4_tangential_eval]
    rw [show (3999 : ℕ) = 3998 + 1 from by norm_num]
    rw [lightPathLoop_cons]
    · simp
    · dsimp only
      norm_num
    · dsimp only
      rw [show (2514029 / 1768680 : ℝ) * Real.cos (10608055 / 6036054) + 400 - 400 =
          (2514029 / 1768680 : ℝ) * Real.cos (10608055 / 6036054) by ring,
        show (2514029 / 1768680 : ℝ) * Real.sin (10608055 / 6036054) + 400 - 400 =
          (2514029 / 1768680 : ℝ) * Real.sin (10608055 / 6036054) by ring,
        hypot_polar]
      push_neg
      have hc1 := Real.cos_le_one (10608055 / 6036054 : ℝ)
      have hc2 := Real.neg_one_le_cos (10608055 / 6036054 : ℝ)
      have hs1 := Real.sin_le_one (10608055 / 6036054 : ℝ)
      have hs2 := Real.neg_one_le_sin (10608055 / 6036054 : ℝ)
      refine ⟨?_, ?_, ?_, ?_, ?_⟩
      · rw [abs_of_pos (by norm_num : (0 : ℝ) < 2514029 / 1768680)]
        norm_num
      · nlinarith
      · nlinarith
      · nlinarith
      · nlinarith
  · dsimp only
    norm_num
  · dsimp only
    rw [show (3 / 10 : ℝ) * Real.cos 0 + 400 - 400 = 3 / 10 * Real.cos 0 by ring,
      show (3 / 10 : ℝ) * Real.sin 0 + 400 - 400 = 3 / 10 * Real.sin 0 by ring,
      hypot_polar, Real.cos_zero, Real.sin_zero]
    push_neg
    norm_num [abs_of_pos]

/-- Counterexample for C2: for the tangential start (400.3, 400) at angle
90 (gravity off, canvas 800 x 800, body size 400, zoom 1), the second
returned point misses the Euclidean ray from the origin point by more than
1/4 screen pixel, far beyond any 1e-6 relative tolerance for this scene
(every length scale involved is at most 1200, and 1e-6 * 1200 is below
2e-3). -/
theorem gravity_off_tolerance_counterexample :
    ¬ ∀ pt ∈ calculateLightPath 400.3 400 90 800 800 400 1 false,
        liesOnRay 400.3 400 90 (1 / 4) pt := by
  intro hall
  have hmem := List.getElem?_mem calculateLightPath_tangential_pair
  have h2 := hall _ hmem
  unfold liesOnRay at h2
  obtain ⟨t, ht, hd⟩ := h2
  rw [show (90 : ℝ) * Real.pi / 180 = Real.pi / 2 by ring,
    Real.cos_pi_div_two, Real.sin_pi_div_two] at hd
  dsimp only at hd
  have habs := abs_le_hypot
    ((2514029 / 1768680 : ℝ) * Real.cos (10608055 / 6036054) + 400 - (400.3 + t * 0))
    ((2514029 / 1768680 : ℝ) * Real.sin (10608055 / 6036054) + 400 - (400 + t * 1))
  have hcos : Real.cos (10608055 / 6036054 : ℝ) ≤ 0 := by
    apply Real.cos_nonpos_of_pi_div_two_le_of_le
    · nlinarith [Real.pi_lt_d2]
    · nlinarith [Real.pi_gt_d2]
  have hneg : (2514029 / 1768680 : ℝ) * Real.cos (10608055 / 6036054) ≤ 0 := by
    nlinarith
  have hflip := neg_le_abs
    ((2514029 / 1768680 : ℝ) * Real.cos (10608055 / 6036054) + 400 - (400.3 + t * 0))
  ring_nf at hd habs hflip
  linarith

end BlackHole
